import Mathlib

/-!
Shallow embedding of the Zencore archive pipeline (src/crypto.rs, src/compress.rs,
src/cli.rs, src/state.rs, src/archive_name.rs) and proofs of the specification claims.

Bytes are modelled as natural numbers; byte strings as `List Nat`.  Randomness
(salt, nonce) is made explicit: the random values drawn by the source become
parameters of the embedded functions.  The external AEAD crates (`aes_gcm`,
`chacha20poly1305`) and the external KDF crate (`argon2`) are not repository code;
they are idealized below as collision-free primitives, which is the standard
computational assumption the repository code relies on.
-/

namespace Zencore

/-- Injective encoding of a byte list into one natural number, used only inside the
idealized AEAD model to build an authentication tag that determines its inputs. -/
def encodeL (l : List Nat) : Nat :=
  l.foldr (fun a r => Nat.pair a r + 1) 0

theorem encodeL_injective : Function.Injective encodeL := by
  intro l₁ l₂ h
  induction l₁ generalizing l₂ with
  | nil =>
    cases l₂ with
    | nil => rfl
    | cons b t => simp [encodeL] at h
  | cons a t ih =>
    cases l₂ with
    | nil => simp [encodeL] at h
    | cons b t₂ =>
      simp only [encodeL, List.foldr_cons, Nat.add_right_cancel_iff] at h
      have h' := Nat.pair_eq_pair.mp h
      have ht : t = t₂ := ih h'.2
      rw [h'.1, ht]

/-- src/crypto.rs lines 17-21: the two supported AEAD ciphers. -/
inductive CipherAlgorithm where
  | aes256Gcm
  | chaCha20Poly1305
deriving DecidableEq

/-- src/crypto.rs lines 138-141: the cipher-id byte written into the envelope. -/
def cipher_id (c : CipherAlgorithm) : Nat :=
  match c with
  | CipherAlgorithm.aes256Gcm => 0
  | CipherAlgorithm.chaCha20Poly1305 => 1

/-- src/crypto.rs lines 163-168: the match on the stored cipher-id byte in
`decrypt_file`; ids other than 0 and 1 are rejected. -/
def cipher_from_id (id : Nat) : Option CipherAlgorithm :=
  match id with
  | 0 => some CipherAlgorithm.aes256Gcm
  | 1 => some CipherAlgorithm.chaCha20Poly1305
  | _ => none

/-- A byte of the PHC base64 alphabet (A-Z, a-z, 0-9, +, /).  Models the combined
check of `std::str::from_utf8` (crypto.rs line 172) and `SaltString::from_b64`
(line 176) on the 22 stored salt bytes: both succeed exactly on this alphabet. -/
def is_b64_byte (b : Nat) : Bool :=
  (65 ≤ b && b ≤ 90) || (97 ≤ b && b ≤ 122) || (48 ≤ b && b ≤ 57) || b = 43 || b = 47

/-- Validity of a stored salt slice: every byte is in the base64 alphabet. -/
def is_valid_salt (s : List Nat) : Bool :=
  s.all is_b64_byte

/-- Idealization of `Encryptor::derive_key` (crypto.rs lines 83-98): Argon2id turns
(password, salt) into 32 key bytes.  The derived key is modelled as the pair itself,
idealizing Argon2id as collision-free, the assumption the envelope design relies on. -/
def derive_key (password salt : List Nat) : List Nat × List Nat :=
  (password, salt)

/-- Idealized AEAD authentication tag: a value that determines the cipher, key,
nonce and message.  Models the 16-byte Poly1305/GCM tag of the external crates,
idealized as collision-free. -/
def auth_tag (c : CipherAlgorithm) (key : List Nat × List Nat) (nonce msg : List Nat) : Nat :=
  Nat.pair (cipher_id c)
    (Nat.pair (encodeL key.1) (Nat.pair (encodeL key.2) (Nat.pair (encodeL nonce) (encodeL msg))))

/-- Idealized model of `cipher.encrypt(nonce, plaintext)` of the external AEAD
crates (crypto.rs lines 113-127): ciphertext carries the message plus a tag that
authenticates cipher, key, nonce and message. -/
def aead_encrypt (c : CipherAlgorithm) (key : List Nat × List Nat) (nonce msg : List Nat) :
    List Nat :=
  msg ++ [auth_tag c key nonce msg]

/-- Idealized model of `cipher.decrypt(nonce, ciphertext)` of the external AEAD
crates (crypto.rs lines 195-205): recover the message and check the tag; any
mismatch of cipher, key or nonce fails. -/
def aead_decrypt (c : CipherAlgorithm) (key : List Nat × List Nat) (nonce ct : List Nat) :
    Option (List Nat) :=
  match ct.getLast? with
  | none => none
  | some t =>
    if t = auth_tag c key nonce ct.dropLast then some ct.dropLast else none

theorem aead_decrypt_encrypt (c : CipherAlgorithm) (key : List Nat × List Nat)
    (nonce msg : List Nat) : aead_decrypt c key nonce (aead_encrypt c key nonce msg) = some msg := by
  simp [aead_decrypt, aead_encrypt]

/-- src/crypto.rs lines 100-149, `Encryptor::encrypt_file`.  The freshly generated
salt (22 base64 characters from `SaltString::generate`) and the 12 random nonce
bytes are explicit parameters.  The function returns the envelope bytes written to
the file: `version(=1) | cipher_id | salt | nonce | ciphertext`. -/
def encrypt_file (self_cipher : CipherAlgorithm) (password salt nonce plaintext : List Nat) :
    List Nat :=
  let key := derive_key password salt
  let ciphertext := aead_encrypt self_cipher key nonce plaintext
  1 :: cipher_id self_cipher :: (salt ++ (nonce ++ ciphertext))

/-- The error conditions of `Encryptor::decrypt_file` (crypto.rs lines 151-214). -/
inductive DecryptError where
  | invalidFormat
  | unsupportedVersion (v : Nat)
  | unknownCipherId (id : Nat)
  | invalidSalt
  | aeadFailure
deriving DecidableEq

/-- src/crypto.rs lines 151-214, `Encryptor::decrypt_file`, on the file bytes.
`self_cipher` is the configured cipher of the `Encryptor` (the `self.cipher`
field); the source never reads it during decryption, only the stored id byte. -/
def decrypt_file (self_cipher : CipherAlgorithm) (password encrypted_data : List Nat) :
    Except DecryptError (List Nat) :=
  if encrypted_data.length < 36 then Except.error DecryptError.invalidFormat
  else
    let version := encrypted_data.getD 0 0
    if version ≠ 1 then Except.error (DecryptError.unsupportedVersion version)
    else
      let cid := encrypted_data.getD 1 0
      match cipher_from_id cid with
      | none => Except.error (DecryptError.unknownCipherId cid)
      | some detected_cipher =>
        let salt := (encrypted_data.drop 2).take 22
        let nonce := (encrypted_data.drop 24).take 12
        let ciphertext := encrypted_data.drop 36
        if is_valid_salt salt = false then Except.error DecryptError.invalidSalt
        else
          let key := derive_key password salt
          match aead_decrypt detected_cipher key nonce ciphertext with
          | some plaintext => Except.ok plaintext
          | none => Except.error DecryptError.aeadFailure

/-- `Encryptor::decrypt_file` together with its effect on the file: the single
`fs::write` of the plaintext (crypto.rs line 209) runs after authenticated
decryption succeeded; every error branch returns before any write, leaving the
file content as read.  The second component is the file content afterwards. -/
def decrypt_file_fs (self_cipher : CipherAlgorithm) (password file : List Nat) :
    Except DecryptError (List Nat) × List Nat :=
  match decrypt_file self_cipher password file with
  | Except.ok plaintext => (Except.ok plaintext, plaintext)
  | Except.error e => (Except.error e, file)

/-!  src/compress.rs: the `Archiver` and the three container encoders.
Paths are modelled as component lists (`List String`); the filesystem the encoders
read from is an explicit map from path to content bytes.  The external container
writers (`tar`, `zip`, `flate2`, `zstd`) are modelled by the abstract container
value they are driven to produce: the chosen level (and, for zip, the password)
plus the ordered list of (entry name, entry content) pairs written. -/

/-- src/compress.rs lines 15-24, the `Archiver` configuration. -/
structure Archiver where
  source : List String
  destination : List String
  archive_name : String
  algorithm : String
  num_threads : Nat
  compression_level : Option Int
  password : Option (List Nat)
  sort_by_size : Bool

/-- Abstract view of the produced container: everything the encoder calls
determine about the output stream. -/
inductive Container where
  | targz (level : Int) (entries : List (String × List Nat))
  | tarzst (level : Int) (entries : List (String × List Nat))
  | zip (level : Int) (password : Option (List Nat)) (entries : List (String × List Nat))
deriving DecidableEq

/-- The entry names of a container, in write order. -/
def Container.entryNames : Container → List String
  | Container.targz _ entries => entries.map Prod.fst
  | Container.tarzst _ entries => entries.map Prod.fst
  | Container.zip _ _ entries => entries.map Prod.fst

/-- `file_path.strip_prefix(&self.source)` (compress.rs lines 179, 205, 239):
the relative path, failing when the source root is not a prefix. -/
def stripSourceRoot (source file : List String) : Option (List String) :=
  if source.isPrefixOf file then some (file.drop source.length) else none

/-- `relative.to_string_lossy().to_string()`: the in-container entry name,
path components joined by the separator. -/
def pathToName (rel : List String) : String :=
  String.intercalate "/" rel

/-- compress.rs line 171: `self.compression_level.unwrap_or(6)` for tar.gz. -/
def tar_gz_level (a : Archiver) : Int :=
  a.compression_level.getD 6

/-- compress.rs line 198: `self.compression_level.unwrap_or(3)` for tar.zst. -/
def tar_zst_level (a : Archiver) : Int :=
  a.compression_level.getD 3

/-- compress.rs line 226: `self.compression_level.unwrap_or(6)` for zip. -/
def zip_level (a : Archiver) : Int :=
  a.compression_level.getD 6

/-- The per-file loop shared verbatim by the three encoders (compress.rs lines
178-185, 204-211, 238-249): for each file, strip the source root (`?` on failure),
append the entry under the relative name, and push the name onto the returned
list.  Returns the written entries and the name list, both in iteration order. -/
def append_entries (source : List String) (fs : List String → List Nat) :
    List (List String) → Except String (List (String × List Nat) × List String)
  | [] => Except.ok ([], [])
  | file_path :: rest =>
    match stripSourceRoot source file_path with
    | none => Except.error "StripPrefixError"
    | some relative =>
      let name := pathToName relative
      match append_entries source fs rest with
      | Except.ok (entries, file_list) =>
        Except.ok ((name, fs file_path) :: entries, name :: file_list)
      | Except.error e => Except.error e

/-- src/compress.rs lines 164-189, `Archiver::compress_tar_gz`. -/
def compress_tar_gz (a : Archiver) (fs : List String → List Nat) (files : List (List String)) :
    Except String (Container × List String) :=
  let level := tar_gz_level a
  match append_entries a.source fs files with
  | Except.ok (entries, file_list) => Except.ok (Container.targz level entries, file_list)
  | Except.error e => Except.error e

/-- src/compress.rs lines 191-215, `Archiver::compress_tar_zst`. -/
def compress_tar_zst (a : Archiver) (fs : List String → List Nat) (files : List (List String)) :
    Except String (Container × List String) :=
  let level := tar_zst_level a
  match append_entries a.source fs files with
  | Except.ok (entries, file_list) => Except.ok (Container.tarzst level entries, file_list)
  | Except.error e => Except.error e

/-- src/compress.rs lines 217-258, `Archiver::compress_zip`.  The optional
password is applied to every entry via `with_deprecated_encryption`. -/
def compress_zip (a : Archiver) (fs : List String → List Nat) (files : List (List String)) :
    Except String (Container × List String) :=
  let level := zip_level a
  match append_entries a.source fs files with
  | Except.ok (entries, file_list) => Except.ok (Container.zip level a.password entries, file_list)
  | Except.error e => Except.error e

/-- compress.rs lines 92-108: stable sort of the collected files by descending
size (`par_sort_by(|a, b| b.1.cmp(&a.1))`), size read from the filesystem. -/
def sort_files_by_size (fs : List String → List Nat) (files : List (List String)) :
    List (List String) :=
  ((files.map (fun p => (p, (fs p).length))).mergeSort
      (fun x y => decide (y.2 ≤ x.2))).map Prod.fst

/-- src/compress.rs lines 65-146, `Archiver::compress`: size-sort the collected
file list when configured, then dispatch on the algorithm string.  The collected
list is a parameter (the parallel directory walk is external I/O).  The first
component is the list of warnings printed; for the tar kinds a configured
password only produces warnings and is otherwise ignored. -/
def Archiver.compress (a : Archiver) (fs : List String → List Nat)
    (collected : List (List String)) : List String × Except String (Container × List String) :=
  let files := if a.sort_by_size then sort_files_by_size fs collected else collected
  match a.algorithm with
  | "tar.gz" | "gz" =>
    (if a.password.isSome then
        ["tar.gz does not support built-in password protection",
         "Use zip format for native encryption"]
      else [],
     compress_tar_gz a fs files)
  | "tar.zst" | "zst" =>
    (if a.password.isSome then
        ["tar.zst does not support built-in password protection",
         "Use zip format for native encryption"]
      else [],
     compress_tar_zst a fs files)
  | "zip" => ([], compress_zip a fs files)
  | other => ([], Except.error ("Unsupported algorithm: " ++ other))

/-- src/cli.rs lines 258-279, the compression-level validation in `run_backup`:
an out-of-range level for the chosen kind is reported and replaced by `None`
(so the encoder later substitutes its default); an in-range level passes
through; with no level given, the configured default level is used. -/
def validate_compression_level : String → Option Int → Option Int → Option Int
  | algo, some lvl, _ =>
    if (algo = "tar.gz" ∨ algo = "zip") ∧ (lvl < 0 ∨ 9 < lvl) then none
    else if algo = "tar.zst" ∧ (lvl < 1 ∨ 22 < lvl) then none
    else some lvl
  | _, none, config_level => config_level

/-!  src/state.rs: archive metadata and the state tracker.  Rust's
`HashMap<String, String>` is modelled as an association list with
insert-replaces-key semantics; lookup is `List.lookup`. -/

/-- Rust `str::to_uppercase`, which on the ASCII algorithm names used here is
per-character ASCII upcasing. -/
def to_uppercase (s : String) : String :=
  String.mk (s.data.map Char.toUpper)

/-- `HashMap::insert`: bind `k` to `v`, replacing any previous binding. -/
def mapInsert (k v : String) (m : List (String × String)) : List (String × String) :=
  (k, v) :: m.filter (fun p => p.1 != k)

/-- src/state.rs lines 7-23, `ArchiveMetadata`.  `checksum` is the legacy single
SHA-256 field; `checksums` is the digest-set keyed by upper-cased algorithm name. -/
structure ArchiveMetadata where
  name : String
  created_at : String
  checksum : String
  checksums : List (String × String)
  algorithm : String
  size_bytes : Nat
  file_count : Nat
  encrypted : Bool
  contents : List String
deriving DecidableEq

/-- src/state.rs lines 26-40, `ArchiveMetadata::get_checksum`: look the
upper-cased name up in the digest-set, falling back to the legacy field for the
SHA-256 spellings. -/
def ArchiveMetadata.get_checksum (m : ArchiveMetadata) (algorithm : String) : Option String :=
  let algo_upper := to_uppercase algorithm
  match m.checksums.lookup algo_upper with
  | some v => some v
  | none =>
    if algo_upper = "SHA-256" ∨ algo_upper = "SHA256" then
      if m.checksum ≠ "" then some m.checksum else none
    else none

/-- src/state.rs lines 42-49, `ArchiveMetadata::add_checksum`: insert under the
upper-cased name; for the SHA-256 spellings also update the legacy field. -/
def ArchiveMetadata.add_checksum (m : ArchiveMetadata) (algorithm : String) (hash : String) :
    ArchiveMetadata :=
  let algo_upper := to_uppercase algorithm
  let m' := { m with checksums := mapInsert algo_upper hash m.checksums }
  if algo_upper = "SHA256" ∨ algo_upper = "SHA-256" then { m' with checksum := hash } else m'

/-- The invariant stated by the spec for the legacy field: whenever it is
non-empty, the digest-set binds the key "SHA-256" to the same value. -/
def checksum_invariant (m : ArchiveMetadata) : Prop :=
  m.checksum ≠ "" → m.checksums.lookup "SHA-256" = some m.checksum

instance (m : ArchiveMetadata) : Decidable (checksum_invariant m) := by
  unfold checksum_invariant
  infer_instance

/-- src/state.rs lines 66-68, `StateTracker`: the keyed collection of records,
modelled as an association list keyed by archive name. -/
structure StateTracker where
  archives : List (String × ArchiveMetadata)
deriving DecidableEq

/-- src/state.rs lines 94-100, `StateTracker::migrate_old_format`: for every
record with a non-empty legacy checksum and an empty digest-set, populate the
digest-set from the legacy field, in memory. -/
def migrate_old_format (t : StateTracker) : StateTracker :=
  { archives :=
      t.archives.map (fun p =>
        let metadata := p.2
        if metadata.checksum ≠ "" ∧ metadata.checksums = [] then
          (p.1, { metadata with
                    checksums := mapInsert "SHA-256" metadata.checksum metadata.checksums })
        else p) }

/-- The persisted state document as `load` finds it: the file may be missing,
unparsable, or hold a well-formed tracker document. -/
inductive DiskState where
  | missing
  | corrupt
  | doc (t : StateTracker)
deriving DecidableEq

/-- src/state.rs lines 79-92, `StateTracker::load`: missing file yields the
default empty tracker; a malformed document is a fatal parse error (`?` on
`serde_json::from_str`); otherwise the parsed tracker is migrated in memory. -/
def StateTracker.load (disk : DiskState) : Except String StateTracker :=
  match disk with
  | DiskState.missing => Except.ok { archives := [] }
  | DiskState.corrupt => Except.error "StateCorruption"
  | DiskState.doc t => Except.ok (migrate_old_format t)

/-- `StateTracker::load` together with its effect on the state file: the body
performs only reads (`exists`, `read_to_string`); no `fs::write` occurs, so the
on-disk document is returned unchanged.  (Only `save`, state.rs lines 102-113,
rewrites the file.) -/
def StateTracker.load_fs (disk : DiskState) : Except String StateTracker × DiskState :=
  (StateTracker.load disk, disk)

/-- src/state.rs lines 119-121, `StateTracker::get_archive`. -/
def StateTracker.get_archive (t : StateTracker) (name : String) : Option ArchiveMetadata :=
  t.archives.lookup name

/-!  src/archive_name.rs: collision-avoidance naming.  Template expansion
(`expand_template`) reads the wall clock, so `generate` is modelled on the
already-expanded base name; the destination filesystem is an explicit
existence predicate on full paths. -/

/-- src/archive_name.rs lines 94-101, `ArchiveNamer::get_extension`. -/
def get_extension (algorithm : String) : String :=
  match algorithm with
  | "tar.gz" => "tar.gz"
  | "tar.zst" => "tar.zst"
  | "zip" => "zip"
  | _ => "archive"

/-- `Path::new(&self.destination).join(&final_name)`. -/
def pathJoin (dest name : String) : String :=
  dest ++ "/" ++ name

/-- The counter loop of `ArchiveNamer::generate` (archive_name.rs lines 45-60):
try `base.<counter>.ext`; stop at the first free name; after a taken
`base.9999.ext` the counter exceeds 9999 and `base.copy.ext` is returned. -/
def generate_loop (base ext dest : String) (ex : String → Bool) (counter : Nat) : String :=
  let final_name := base ++ "." ++ toString counter ++ "." ++ ext
  if ex (pathJoin dest final_name) = false then final_name
  else if _h : 9999 < counter + 1 then base ++ ".copy." ++ ext
  else generate_loop base ext dest ex (counter + 1)
termination_by 10000 - counter
decreasing_by omega

/-- src/archive_name.rs lines 34-64, `ArchiveNamer::generate`, on the expanded
base name: return `base.ext` when free, otherwise run the counter loop from 1. -/
def generate (base ext dest : String) (ex : String → Bool) : String :=
  let final_name := base ++ "." ++ ext
  if ex (pathJoin dest final_name) = false then final_name
  else generate_loop base ext dest ex 1

/-!  Helper lemmas about the envelope layout. -/

theorem envelope_drop2 (b : Nat) (rest : List Nat) :
    (1 :: b :: rest).drop 2 = rest := rfl

theorem envelope_drop24 (b : Nat) (salt rest : List Nat) (hs : salt.length = 22) :
    (1 :: b :: (salt ++ rest)).drop 24 = rest := by
  have h : ((1 :: b :: (salt ++ rest)).drop 2).drop 22 = (1 :: b :: (salt ++ rest)).drop 24 := by
    rw [List.drop_drop]
  rw [← h, envelope_drop2, ← hs, List.drop_left]

theorem envelope_drop36 (b : Nat) (salt nonce ct : List Nat)
    (hs : salt.length = 22) (hn : nonce.length = 12) :
    (1 :: b :: (salt ++ (nonce ++ ct))).drop 36 = ct := by
  have h : ((1 :: b :: (salt ++ (nonce ++ ct))).drop 24).drop 12
      = (1 :: b :: (salt ++ (nonce ++ ct))).drop 36 := by
    rw [List.drop_drop]
  rw [← h, envelope_drop24 _ _ _ hs, ← hn, List.drop_left]

theorem cipher_from_id_cipher_id (c : CipherAlgorithm) : cipher_from_id (cipher_id c) = some c := by
  cases c <;> rfl

/-- Decrypting any well-formed version-1 envelope reduces to the AEAD decryption
of its ciphertext under the cipher selected by the stored id byte and the key
derived from the supplied password and the stored salt. -/
theorem decrypt_file_envelope (cc c : CipherAlgorithm) (password salt nonce ct : List Nat)
    (hs : salt.length = 22) (hvalid : is_valid_salt salt = true) (hn : nonce.length = 12) :
    decrypt_file cc password (1 :: cipher_id c :: (salt ++ (nonce ++ ct))) =
      match aead_decrypt c (derive_key password salt) nonce ct with
      | some plaintext => Except.ok plaintext
      | none => Except.error DecryptError.aeadFailure := by
  have hlen : (1 :: cipher_id c :: (salt ++ (nonce ++ ct))).length = 36 + ct.length := by
    simp [List.length_append, hs, hn]; omega
  have hd2 : ((1 :: cipher_id c :: (salt ++ (nonce ++ ct))).drop 2).take 22 = salt := by
    rw [envelope_drop2, ← hs, List.take_left]
  have hd24 : ((1 :: cipher_id c :: (salt ++ (nonce ++ ct))).drop 24).take 12 = nonce := by
    rw [envelope_drop24 _ _ _ hs, ← hn, List.take_left]
  have hd36 : (1 :: cipher_id c :: (salt ++ (nonce ++ ct))).drop 36 = ct :=
    envelope_drop36 _ _ _ _ hs hn
  simp only [decrypt_file]
  rw [if_neg (by omega : ¬ (1 :: cipher_id c :: (salt ++ (nonce ++ ct))).length < 36)]
  simp only [List.getD_cons_zero, List.getD_cons_succ, ne_eq, not_true_eq_false, if_false,
    cipher_from_id_cipher_id, hd2, hd24, hd36, hvalid, Bool.true_eq_false, reduceIte]

/-- C1.  Round-trip: for every byte content (including empty) and every password,
decrypting the file produced by `encrypt_file` with the same password restores
the original bytes exactly, for both cipher choices (and whatever cipher the
decrypting `Encryptor` happens to be configured with).  The salt and nonce are
the random values drawn during encryption: 22 base64 salt characters and 12
nonce bytes. -/
theorem encrypt_decrypt_roundtrip (c cc : CipherAlgorithm)
    (password salt nonce plaintext : List Nat)
    (hs : salt.length = 22) (hvalid : is_valid_salt salt = true) (hn : nonce.length = 12) :
    decrypt_file cc password (encrypt_file c password salt nonce plaintext) =
      Except.ok plaintext := by
  show decrypt_file cc password
      (1 :: cipher_id c :: (salt ++ (nonce ++ aead_encrypt c (derive_key password salt) nonce plaintext)))
      = Except.ok plaintext
  rw [decrypt_file_envelope cc c password salt nonce _ hs hvalid hn, aead_decrypt_encrypt]

/-- Witness for C1: a concrete round trip for each cipher, on empty and
non-empty content. -/
theorem encrypt_decrypt_roundtrip_witness :
    decrypt_file CipherAlgorithm.chaCha20Poly1305 [7, 8]
        (encrypt_file CipherAlgorithm.aes256Gcm [7, 8] (List.replicate 22 65)
          (List.replicate 12 0) []) = Except.ok []
    ∧ decrypt_file CipherAlgorithm.aes256Gcm [7]
        (encrypt_file CipherAlgorithm.chaCha20Poly1305 [7] (List.replicate 22 97)
          (List.replicate 12 3) [10, 20, 30]) = Except.ok [10, 20, 30] :=
  ⟨encrypt_decrypt_roundtrip _ _ _ _ _ _ (by decide) (by decide) (by decide),
   encrypt_decrypt_roundtrip _ _ _ _ _ _ (by decide) (by decide) (by decide)⟩

theorem aead_decrypt_wrong_key (c : CipherAlgorithm) (k k' : List Nat × List Nat)
    (nonce msg : List Nat) (hne : k.1 ≠ k'.1) :
    aead_decrypt c k' nonce (aead_encrypt c k nonce msg) = none := by
  simp only [aead_encrypt, aead_decrypt, List.getLast?_concat, List.dropLast_concat]
  rw [if_neg]
  intro he
  exact hne (encodeL_injective ((Nat.pair_eq_pair.mp ((Nat.pair_eq_pair.mp he).2)).1))

/-- C2.  Wrong password: decrypting with password B a file encrypted with a
different password A always fails with the AEAD authentication error, for both
ciphers; it never succeeds and never returns altered plaintext. -/
theorem wrong_password_fails (c cc : CipherAlgorithm)
    (passwordA passwordB salt nonce plaintext : List Nat)
    (hs : salt.length = 22) (hvalid : is_valid_salt salt = true) (hn : nonce.length = 12)
    (hne : passwordA ≠ passwordB) :
    decrypt_file cc passwordB (encrypt_file c passwordA salt nonce plaintext) =
      Except.error DecryptError.aeadFailure := by
  show decrypt_file cc passwordB
      (1 :: cipher_id c ::
        (salt ++ (nonce ++ aead_encrypt c (derive_key passwordA salt) nonce plaintext)))
      = Except.error DecryptError.aeadFailure
  rw [decrypt_file_envelope cc c passwordB salt nonce _ hs hvalid hn,
    aead_decrypt_wrong_key c (derive_key passwordA salt) (derive_key passwordB salt) nonce
      plaintext hne]

/-- Witness for C2: concrete distinct passwords, both ciphers. -/
theorem wrong_password_fails_witness :
    decrypt_file CipherAlgorithm.aes256Gcm [2]
        (encrypt_file CipherAlgorithm.aes256Gcm [1] (List.replicate 22 65)
          (List.replicate 12 0) [5]) = Except.error DecryptError.aeadFailure
    ∧ decrypt_file CipherAlgorithm.aes256Gcm []
        (encrypt_file CipherAlgorithm.chaCha20Poly1305 [9] (List.replicate 22 48)
          (List.replicate 12 1) []) = Except.error DecryptError.aeadFailure :=
  ⟨wrong_password_fails _ _ _ _ _ _ _ (by decide) (by decide) (by decide) (by decide),
   wrong_password_fails _ _ _ _ _ _ _ (by decide) (by decide) (by decide) (by decide)⟩

theorem cipher_from_id_eq_none (n : Nat) (h0 : n ≠ 0) (h1 : n ≠ 1) : cipher_from_id n = none := by
  match n, h0, h1 with
  | 0, h0, _ => exact absurd rfl h0
  | 1, _, h1 => exact absurd rfl h1
  | (k + 2), _, _ => rfl

/-- C3.  The envelope layout and header dispatch: `encrypt_file` writes
`version(=1) | cipher_id | salt | nonce | ciphertext` with cipher-id byte 0 for
AES-256-GCM and 1 for ChaCha20-Poly1305; `decrypt_file` never consults the
caller's configured cipher (its result is the same for any configured cipher),
and it errors on inputs shorter than 36 bytes, on a version byte other than 1,
and on a stored cipher id other than 0 and 1. -/
theorem envelope_format :
    (∀ (c : CipherAlgorithm) (password salt nonce plaintext : List Nat),
        encrypt_file c password salt nonce plaintext =
          1 :: cipher_id c ::
            (salt ++ (nonce ++ aead_encrypt c (derive_key password salt) nonce plaintext)))
    ∧ cipher_id CipherAlgorithm.aes256Gcm = 0
    ∧ cipher_id CipherAlgorithm.chaCha20Poly1305 = 1
    ∧ (∀ (cc cc' : CipherAlgorithm) (password data : List Nat),
        decrypt_file cc password data = decrypt_file cc' password data)
    ∧ (∀ (cc : CipherAlgorithm) (password data : List Nat), data.length < 36 →
        decrypt_file cc password data = Except.error DecryptError.invalidFormat)
    ∧ (∀ (cc : CipherAlgorithm) (password data : List Nat), ¬ data.length < 36 →
        data.getD 0 0 ≠ 1 →
        decrypt_file cc password data =
          Except.error (DecryptError.unsupportedVersion (data.getD 0 0)))
    ∧ (∀ (cc : CipherAlgorithm) (password data : List Nat), ¬ data.length < 36 →
        data.getD 0 0 = 1 → data.getD 1 0 ≠ 0 → data.getD 1 0 ≠ 1 →
        decrypt_file cc password data =
          Except.error (DecryptError.unknownCipherId (data.getD 1 0))) := by
  refine ⟨fun c password salt nonce plaintext => rfl, rfl, rfl,
    fun cc cc' password data => rfl, ?_, ?_, ?_⟩
  · intro cc password data h
    simp only [decrypt_file]
    rw [if_pos h]
  · intro cc password data hlen hv
    simp only [decrypt_file]
    rw [if_neg hlen, if_pos hv]
  · intro cc password data hlen hv h0 h1
    simp only [decrypt_file]
    rw [if_neg hlen, hv, if_neg (by simp), cipher_from_id_eq_none _ h0 h1]

/-- Witness for C3: the error branches at concrete inputs (too short; bad
version; unknown cipher id), via the theorem itself. -/
theorem envelope_format_witness :
    decrypt_file CipherAlgorithm.aes256Gcm [] [1, 2, 3] =
      Except.error DecryptError.invalidFormat
    ∧ decrypt_file CipherAlgorithm.aes256Gcm [] (2 :: List.replicate 40 0) =
      Except.error (DecryptError.unsupportedVersion 2)
    ∧ decrypt_file CipherAlgorithm.chaCha20Poly1305 [] (1 :: 7 :: List.replicate 40 0) =
      Except.error (DecryptError.unknownCipherId 7) :=
  ⟨envelope_format.2.2.2.2.1 _ _ _ (by decide),
   envelope_format.2.2.2.2.2.1 _ _ _ (by decide) (by decide),
   envelope_format.2.2.2.2.2.2 _ _ _ (by decide) (by decide) (by decide) (by decide)⟩

/-- C9.  Whenever `decrypt_file` returns an error of any kind, the file on disk
is left byte-for-byte unchanged: the plaintext overwrite happens only after
authenticated decryption has succeeded. -/
theorem decrypt_error_preserves_file (cc : CipherAlgorithm) (password file : List Nat)
    (e : DecryptError) (h : (decrypt_file_fs cc password file).1 = Except.error e) :
    (decrypt_file_fs cc password file).2 = file := by
  unfold decrypt_file_fs at h ⊢
  cases hd : decrypt_file cc password file with
  | ok plaintext => rw [hd] at h; exact absurd h (by simp)
  | error e' => rfl

/-- Witness for C9: a concrete failing input (file shorter than 36 bytes). -/
theorem decrypt_error_preserves_file_witness :
    (decrypt_file_fs CipherAlgorithm.aes256Gcm [1] [9, 9]).1 =
      Except.error DecryptError.invalidFormat
    ∧ (decrypt_file_fs CipherAlgorithm.aes256Gcm [1] [9, 9]).2 = [9, 9] :=
  ⟨by rfl, decrypt_error_preserves_file _ _ _ DecryptError.invalidFormat (by rfl)⟩

/-!  Claims about the container encoders. -/

theorem append_entries_ok (source : List String) (fs : List String → List Nat)
    (files : List (List String)) (entries : List (String × List Nat)) (names : List String)
    (h : append_entries source fs files = Except.ok (entries, names)) :
    names = files.map (fun f => pathToName (f.drop source.length))
    ∧ entries.map Prod.fst = names
    ∧ ∀ f ∈ files, source.isPrefixOf f = true := by
  induction files generalizing entries names with
  | nil =>
    simp only [append_entries, Except.ok.injEq, Prod.mk.injEq] at h
    obtain ⟨he, hn⟩ := h
    subst he; subst hn
    simp
  | cons f rest ih =>
    simp only [append_entries] at h
    cases hsp : stripSourceRoot source f with
    | none => rw [hsp] at h; exact absurd h (by simp)
    | some relative =>
      rw [hsp] at h
      cases hae : append_entries source fs rest with
      | error e => rw [hae] at h; exact absurd h (by simp)
      | ok p =>
        obtain ⟨entries', names'⟩ := p
        rw [hae] at h
        simp only [Except.ok.injEq, Prod.mk.injEq] at h
        obtain ⟨he, hn⟩ := h
        subst he; subst hn
        obtain ⟨ihn, ihe, ihp⟩ := ih entries' names' hae
        unfold stripSourceRoot at hsp
        by_cases hpre : source.isPrefixOf f = true
        · rw [if_pos hpre] at hsp
          simp only [Option.some.injEq] at hsp
          subst hsp
          refine ⟨by simp [ihn], by simp [ihe], ?_⟩
          intro g hg
          rcases List.mem_cons.mp hg with hg | hg
          · rw [hg]; exact hpre
          · exact ihp g hg
        · rw [if_neg hpre] at hsp
          exact absurd hsp (by simp)

/-- C4.  For every source tree and each of the three container kinds, the
encoder returns exactly the list of in-container entry names it wrote, in write
order; each name is the corresponding file path with the source root stripped,
and entry order equals the order of the file list given to the encoder. -/
theorem compress_entry_names (a : Archiver) (fs : List String → List Nat)
    (files : List (List String)) (cont : Container) (names : List String) :
    (compress_tar_gz a fs files = Except.ok (cont, names) →
      names = files.map (fun f => pathToName (f.drop a.source.length))
      ∧ cont.entryNames = names)
    ∧ (compress_tar_zst a fs files = Except.ok (cont, names) →
      names = files.map (fun f => pathToName (f.drop a.source.length))
      ∧ cont.entryNames = names)
    ∧ (compress_zip a fs files = Except.ok (cont, names) →
      names = files.map (fun f => pathToName (f.drop a.source.length))
      ∧ cont.entryNames = names) := by
  refine ⟨?_, ?_, ?_⟩ <;> intro h
  · unfold compress_tar_gz at h
    cases hae : append_entries a.source fs files with
    | error e => rw [hae] at h; exact absurd h (by simp)
    | ok p =>
      obtain ⟨entries, file_list⟩ := p
      rw [hae] at h
      simp only [Except.ok.injEq, Prod.mk.injEq] at h
      obtain ⟨hc, hn⟩ := h
      subst hc; subst hn
      obtain ⟨h1, h2, _⟩ := append_entries_ok a.source fs files entries file_list hae
      exact ⟨h1, h2⟩
  · unfold compress_tar_zst at h
    cases hae : append_entries a.source fs files with
    | error e => rw [hae] at h; exact absurd h (by simp)
    | ok p =>
      obtain ⟨entries, file_list⟩ := p
      rw [hae] at h
      simp only [Except.ok.injEq, Prod.mk.injEq] at h
      obtain ⟨hc, hn⟩ := h
      subst hc; subst hn
      obtain ⟨h1, h2, _⟩ := append_entries_ok a.source fs files entries file_list hae
      exact ⟨h1, h2⟩
  · unfold compress_zip at h
    cases hae : append_entries a.source fs files with
    | error e => rw [hae] at h; exact absurd h (by simp)
    | ok p =>
      obtain ⟨entries, file_list⟩ := p
      rw [hae] at h
      simp only [Except.ok.injEq, Prod.mk.injEq] at h
      obtain ⟨hc, hn⟩ := h
      subst hc; subst hn
      obtain ⟨h1, h2, _⟩ := append_entries_ok a.source fs files entries file_list hae
      exact ⟨h1, h2⟩

/-- A concrete archiver configuration used by the witnesses. -/
def arch0 : Archiver :=
  { source := ["root"], destination := ["dst"], archive_name := "backup.tar.gz",
    algorithm := "tar.gz", num_threads := 0, compression_level := none,
    password := none, sort_by_size := false }

/-- Witness for C4: a two-file tree under source root `root`; the returned list
is the root-stripped names in write order for all three kinds. -/
theorem compress_entry_names_witness :
    compress_tar_gz arch0 (fun _ => [1]) [["root", "a.txt"], ["root", "sub", "b.txt"]] =
      Except.ok (Container.targz 6 [("a.txt", [1]), ("sub/b.txt", [1])], ["a.txt", "sub/b.txt"])
    ∧ ["a.txt", "sub/b.txt"] =
      ([["root", "a.txt"], ["root", "sub", "b.txt"]].map
        (fun f => pathToName (f.drop arch0.source.length)))
    ∧ (Container.targz 6 [("a.txt", [1]), ("sub/b.txt", [1])]).entryNames =
      ["a.txt", "sub/b.txt"] := by
  have h : compress_tar_gz arch0 (fun _ => [1]) [["root", "a.txt"], ["root", "sub", "b.txt"]] =
      Except.ok (Container.targz 6 [("a.txt", [1]), ("sub/b.txt", [1])],
        ["a.txt", "sub/b.txt"]) := by rfl
  have h2 := (compress_entry_names arch0 (fun _ => [1])
    [["root", "a.txt"], ["root", "sub", "b.txt"]]
    (Container.targz 6 [("a.txt", [1]), ("sub/b.txt", [1])]) ["a.txt", "sub/b.txt"]).1 h
  exact ⟨h, h2.1, h2.2⟩

theorem compress_tar_gz_congr (a b : Archiver) (fs : List String → List Nat)
    (files : List (List String)) (hsrc : a.source = b.source)
    (hlvl : a.compression_level = b.compression_level) :
    compress_tar_gz a fs files = compress_tar_gz b fs files := by
  unfold compress_tar_gz tar_gz_level
  rw [hsrc, hlvl]

theorem compress_tar_zst_congr (a b : Archiver) (fs : List String → List Nat)
    (files : List (List String)) (hsrc : a.source = b.source)
    (hlvl : a.compression_level = b.compression_level) :
    compress_tar_zst a fs files = compress_tar_zst b fs files := by
  unfold compress_tar_zst tar_zst_level
  rw [hsrc, hlvl]

/-- C10.  For the tar.gz and tar.zst kinds (either spelling accepted by the
dispatcher), a configured password has no effect on the produced container or
on the returned relative-path list: `compress` with a password yields the same
result component as the same job with no password.  (The password only adds
warnings for these kinds; it is applied solely by the zip encoder.) -/
theorem tar_password_has_no_effect (a : Archiver) (fs : List String → List Nat)
    (collected : List (List String)) (pw : List Nat)
    (h : a.algorithm = "tar.gz" ∨ a.algorithm = "gz"
      ∨ a.algorithm = "tar.zst" ∨ a.algorithm = "zst") :
    (Archiver.compress { a with password := some pw } fs collected).2 =
      (Archiver.compress { a with password := none } fs collected).2 := by
  obtain ⟨src, dst, nm, alg, nt, cl, pw0, sb⟩ := a
  simp only at h
  rcases h with h | h | h | h <;> subst h <;>
    simp only [Archiver.compress] <;>
    first
    | exact compress_tar_gz_congr _ _ _ _ rfl rfl
    | exact compress_tar_zst_congr _ _ _ _ rfl rfl

/-- Witness for C10: a concrete tar.zst job, with and without a password. -/
theorem tar_password_has_no_effect_witness :
    (Archiver.compress { arch0 with algorithm := "tar.zst", password := some [1, 2] }
        (fun _ => []) [["root", "x"]]).2 =
      (Archiver.compress { arch0 with algorithm := "tar.zst", password := none }
        (fun _ => []) [["root", "x"]]).2 :=
  tar_password_has_no_effect { arch0 with algorithm := "tar.zst" } (fun _ => [])
    [["root", "x"]] [1, 2] (Or.inr (Or.inr (Or.inl rfl)))

theorem validate_compression_level_some (algo : String) (lvl : Int) (cfg : Option Int) :
    validate_compression_level algo (some lvl) cfg =
      if (algo = "tar.gz" ∨ algo = "zip") ∧ (lvl < 0 ∨ 9 < lvl) then none
      else if algo = "tar.zst" ∧ (lvl < 1 ∨ 22 < lvl) then none
      else some lvl := rfl

/-- C5.  An out-of-range compression level for the chosen kind (tar.gz and zip:
0..9; tar.zst: 1..22) is rejected by the CLI validation and replaced by `none`,
so the encoder substitutes the kind's default (6 for tar.gz and zip, 3 for
tar.zst); the rejected value is never clamped and never reaches the encoder
(the substituted default differs from it); an in-range level passes through
unchanged.  Validation returns a value rather than failing, so encoding
continues non-fatally. -/
theorem invalid_level_rejected (a : Archiver) (lvl : Int) (cfg : Option Int) :
    ((lvl < 0 ∨ 9 < lvl) →
      validate_compression_level "tar.gz" (some lvl) cfg = none
      ∧ validate_compression_level "zip" (some lvl) cfg = none
      ∧ tar_gz_level { a with
          compression_level := validate_compression_level "tar.gz" (some lvl) cfg } = 6
      ∧ zip_level { a with
          compression_level := validate_compression_level "zip" (some lvl) cfg } = 6
      ∧ lvl ≠ 6)
    ∧ ((lvl < 1 ∨ 22 < lvl) →
      validate_compression_level "tar.zst" (some lvl) cfg = none
      ∧ tar_zst_level { a with
          compression_level := validate_compression_level "tar.zst" (some lvl) cfg } = 3
      ∧ lvl ≠ 3)
    ∧ (¬ (lvl < 0 ∨ 9 < lvl) →
      validate_compression_level "tar.gz" (some lvl) cfg = some lvl
      ∧ validate_compression_level "zip" (some lvl) cfg = some lvl)
    ∧ (¬ (lvl < 1 ∨ 22 < lvl) →
      validate_compression_level "tar.zst" (some lvl) cfg = some lvl) := by
  refine ⟨?_, ?_, ?_, ?_⟩
  · intro h
    have hg : validate_compression_level "tar.gz" (some lvl) cfg = none := by
      rw [validate_compression_level_some, if_pos ⟨Or.inl rfl, h⟩]
    have hz : validate_compression_level "zip" (some lvl) cfg = none := by
      rw [validate_compression_level_some, if_pos ⟨Or.inr rfl, h⟩]
    refine ⟨hg, hz, ?_, ?_, by omega⟩
    · unfold tar_gz_level
      rw [hg]; rfl
    · unfold zip_level
      rw [hz]; rfl
  · intro h
    have hz : validate_compression_level "tar.zst" (some lvl) cfg = none := by
      rw [validate_compression_level_some, if_neg (by simp), if_pos ⟨rfl, h⟩]
    refine ⟨hz, ?_, by omega⟩
    unfold tar_zst_level
    rw [hz]; rfl
  · intro h
    constructor <;>
      · rw [validate_compression_level_some, if_neg (by tauto), if_neg (by simp)]
  · intro h
    rw [validate_compression_level_some, if_neg (by simp), if_neg (by tauto)]

/-- Witness for C5: level 15 is rejected for tar.gz and zip (default 6 is used),
level 0 is rejected for tar.zst (default 3 is used), and level 9 passes
validation for tar.gz. -/
theorem invalid_level_rejected_witness :
    validate_compression_level "tar.gz" (some 15) none = none
    ∧ tar_gz_level { arch0 with
        compression_level := validate_compression_level "tar.gz" (some 15) none } = 6
    ∧ validate_compression_level "tar.zst" (some 0) none = none
    ∧ tar_zst_level { arch0 with
        compression_level := validate_compression_level "tar.zst" (some 0) none } = 3
    ∧ validate_compression_level "tar.gz" (some 9) none = some 9 := by
  have h15 := (invalid_level_rejected arch0 15 none).1 (by omega)
  have h0 := (invalid_level_rejected arch0 0 none).2.1 (by omega)
  have h9 := (invalid_level_rejected arch0 9 none).2.2.1 (by omega)
  exact ⟨h15.1, h15.2.2.1, h0.1, h0.2.1, h9.1⟩

/-!  Claims about the state store. -/

theorem lookup_filter_ne (k u : String) (l : List (String × String)) (h : k ≠ u) :
    (l.filter (fun p => p.1 != u)).lookup k = l.lookup k := by
  induction l with
  | nil => rfl
  | cons a t ih =>
    rw [List.filter_cons]
    by_cases hau : a.1 = u
    · have hka : (k == a.1) = false := by
        rw [beq_eq_false_iff_ne, hau]
        exact h
      rw [if_neg (by simp [hau]), ih]
      show _ = (match k == a.1 with | true => some a.2 | false => List.lookup k t)
      rw [hka]
    · rw [if_pos (by simp [bne_iff_ne, hau])]
      show (match k == a.1 with | true => some a.2 | false => List.lookup k ( List.filter (fun p => p.1 != u) t))
        = (match k == a.1 with | true => some a.2 | false => List.lookup k t)
      cases hka : k == a.1 with
      | true => rfl
      | false => exact ih

theorem lookup_mapInsert_self (u v : String) (l : List (String × String)) :
    (mapInsert u v l).lookup u = some v := by
  simp [mapInsert, List.lookup]

theorem lookup_mapInsert_ne (k u v : String) (l : List (String × String)) (h : k ≠ u) :
    (mapInsert u v l).lookup k = l.lookup k := by
  have hku : (k == u) = false := by
    rw [beq_eq_false_iff_ne]
    exact h
  simp only [mapInsert, List.lookup, hku]
  exact lookup_filter_ne k u l h

/-- An all-empty metadata record, the starting value of the counterexample. -/
def meta0 : ArchiveMetadata :=
  { name := "a", created_at := "", checksum := "", checksums := [],
    algorithm := "tar.gz", size_bytes := 0, file_count := 0, encrypted := false,
    contents := [] }

/-- C6, counterexample.  The claim fails as stated: one `add_checksum` call with
the spelling "sha256" (upper-cased to "SHA256") sets the legacy field but
inserts the digest under the key "SHA256", so the digest-set does not contain
the key "SHA-256" at all. -/
theorem add_checksum_invariant_counterexample :
    ¬ checksum_invariant (meta0.add_checksum "sha256" "abc")
    ∧ (meta0.add_checksum "sha256" "abc").checksum = "abc"
    ∧ (meta0.add_checksum "sha256" "abc").checksums.lookup "SHA-256" = none
    ∧ (meta0.add_checksum "sha256" "abc").checksums.lookup "SHA256" = some "abc" := by
  refine ⟨?_, by rfl, by rfl, by rfl⟩
  intro hinv
  have h := hinv (by decide)
  exact absurd h (by decide)

/-- C6, amended.  For every metadata value already satisfying the invariant and
every `add_checksum` call whose algorithm name does not upper-case to the
hyphen-less "SHA256" (so hyphenated SHA-256 spellings in any case, and all
other algorithms, are allowed), the invariant still holds after the call: a
non-empty legacy field implies the digest-set binds "SHA-256" to the same
value.  (A call that upper-cases to "SHA256" — e.g. "sha256" — instead updates
the legacy field while inserting under the key "SHA256", which can break the
invariant, as the counterexample shows.) -/
theorem add_checksum_preserves_invariant (m : ArchiveMetadata) (algorithm hash : String)
    (hinv : checksum_invariant m) (halgo : to_uppercase algorithm ≠ "SHA256") :
    checksum_invariant (m.add_checksum algorithm hash) := by
  unfold ArchiveMetadata.add_checksum
  by_cases hc : to_uppercase algorithm = "SHA256" ∨ to_uppercase algorithm = "SHA-256"
  · have hu : to_uppercase algorithm = "SHA-256" := by
      rcases hc with h | h
      · exact absurd h halgo
      · exact h
    rw [if_pos hc]
    intro _
    simp only [hu]
    exact lookup_mapInsert_self "SHA-256" hash m.checksums
  · rw [if_neg hc]
    intro hne
    simp only at hne ⊢
    have hS : to_uppercase algorithm ≠ "SHA-256" := fun h => hc (Or.inr h)
    rw [lookup_mapInsert_ne _ _ _ _ (fun h => hS h.symm)]
    exact hinv hne

/-- Witness for the amended C6: a hyphenated call on a record already holding a
SHA-256 digest keeps the invariant. -/
theorem add_checksum_preserves_invariant_witness :
    checksum_invariant
      (({ meta0 with checksum := "x", checksums := [("SHA-256", "x")] } :
          ArchiveMetadata).add_checksum "sha-256" "y") :=
  add_checksum_preserves_invariant _ "sha-256" "y" (by decide) (by decide)

/-- The per-record migration step of `migrate_old_format`. -/
def migrate_md (metadata : ArchiveMetadata) : ArchiveMetadata :=
  if metadata.checksum ≠ "" ∧ metadata.checksums = [] then
    { metadata with checksums := mapInsert "SHA-256" metadata.checksum metadata.checksums }
  else metadata

theorem migrate_old_format_eq (t : StateTracker) :
    migrate_old_format t = { archives := t.archives.map (fun p => (p.1, migrate_md p.2)) } := by
  unfold migrate_old_format migrate_md
  congr 1
  apply List.map_congr_left
  intro p _
  by_cases h : p.2.checksum ≠ "" ∧ p.2.checksums = []
  · rw [if_pos h, if_pos h]
  · rw [if_neg h, if_neg h]

theorem lookup_map_keyed (k : String) (l : List (String × ArchiveMetadata))
    (g : ArchiveMetadata → ArchiveMetadata) (m : ArchiveMetadata)
    (h : l.lookup k = some m) :
    (l.map (fun p => (p.1, g p.2))).lookup k = some (g m) := by
  induction l with
  | nil => exact absurd h (by simp [List.lookup])
  | cons a t ih =>
    simp only [List.map_cons, List.lookup] at h ⊢
    cases hka : k == a.1 with
    | true =>
      rw [hka] at h
      simp only [Option.some.injEq] at h
      rw [h]
    | false =>
      rw [hka] at h
      exact ih h

/-- C7.  After `load()`, every persisted record that carried only the legacy
digest field (non-empty legacy checksum, empty digest-set) exposes that value
in its digest-set under the "SHA-256" key; and `load` performs no write, so the
on-disk document is unchanged (only a later explicit `save` persists the
migrated form). -/
theorem load_migrates_legacy (t : StateTracker) (name : String) (m : ArchiveMetadata)
    (hm : t.archives.lookup name = some m) (hc : m.checksum ≠ "") (hcs : m.checksums = []) :
    StateTracker.load (DiskState.doc t) = Except.ok (migrate_old_format t)
    ∧ (migrate_old_format t).get_archive name =
        some { m with checksums := [("SHA-256", m.checksum)] }
    ∧ ({ m with checksums := [("SHA-256", m.checksum)] } :
        ArchiveMetadata).checksums.lookup "SHA-256" = some m.checksum
    ∧ StateTracker.load_fs (DiskState.doc t) =
        (StateTracker.load (DiskState.doc t), DiskState.doc t) := by
  refine ⟨rfl, ?_, by simp [List.lookup], rfl⟩
  rw [migrate_old_format_eq]
  unfold StateTracker.get_archive
  have h := lookup_map_keyed name t.archives migrate_md m hm
  rw [h]
  unfold migrate_md
  rw [if_pos ⟨hc, hcs⟩, hcs]
  rfl

/-- Witness for C7: a one-record legacy document. -/
theorem load_migrates_legacy_witness :
    StateTracker.load
        (DiskState.doc { archives := [("b", { meta0 with name := "b", checksum := "cafe" })] }) =
      Except.ok (migrate_old_format
        { archives := [("b", { meta0 with name := "b", checksum := "cafe" })] })
    ∧ (migrate_old_format
        { archives := [("b", { meta0 with name := "b", checksum := "cafe" })] }).get_archive "b" =
      some { meta0 with name := "b", checksum := "cafe", checksums := [("SHA-256", "cafe")] } := by
  have h := load_migrates_legacy
    { archives := [("b", { meta0 with name := "b", checksum := "cafe" })] } "b"
    { meta0 with name := "b", checksum := "cafe" } (by rfl) (by decide) (by rfl)
  exact ⟨h.1, h.2.1⟩

/-!  Claims about the archive namer. -/

/-- The candidate name tried at a given counter value. -/
def counter_name (base ext : String) (counter : Nat) : String :=
  base ++ "." ++ toString counter ++ "." ++ ext

theorem generate_loop_finds (base ext dest : String) (ex : String → Bool) (k : Nat) :
    ∀ d counter, k - counter = d → 1 ≤ counter → counter ≤ k → k ≤ 9999 →
    ex (pathJoin dest (counter_name base ext k)) = false →
    (∀ j, counter ≤ j → j < k → ex (pathJoin dest (counter_name base ext j)) = true) →
    generate_loop base ext dest ex counter = counter_name base ext k := by
  intro d
  induction d with
  | zero =>
    intro counter hd _ hck _ hk _
    have hck' : counter = k := by omega
    subst hck'
    rw [generate_loop]
    simp only [counter_name] at hk
    rw [if_pos hk]
    rfl
  | succ d ih =>
    intro counter hd h1 hck hk9 hk hprev
    have hlt : counter < k := by omega
    have hcur : ex (pathJoin dest (counter_name base ext counter)) = true :=
      hprev counter (Nat.le_refl counter) hlt
    rw [generate_loop]
    simp only [counter_name] at hcur
    rw [hcur]
    simp only [Bool.true_eq_false, if_false]
    rw [dif_neg (by omega : ¬ 9999 < counter + 1)]
    exact ih (counter + 1) (by omega) (by omega) (by omega) hk9 hk
      (fun j hj1 hj2 => hprev j (by omega) hj2)

theorem generate_loop_exhausted (base ext dest : String) (ex : String → Bool) :
    ∀ d counter, 9999 - counter = d → 1 ≤ counter → counter ≤ 9999 →
    (∀ j, counter ≤ j → j ≤ 9999 → ex (pathJoin dest (counter_name base ext j)) = true) →
    generate_loop base ext dest ex counter = base ++ ".copy." ++ ext := by
  intro d
  induction d with
  | zero =>
    intro counter hd _ hck hall
    have hck' : counter = 9999 := by omega
    subst hck'
    rw [generate_loop]
    have hcur := hall 9999 (Nat.le_refl _) (Nat.le_refl _)
    simp only [counter_name] at hcur
    rw [hcur]
    simp only [Bool.true_eq_false, if_false]
    rw [dif_pos (by omega : 9999 < 9999 + 1)]
  | succ d ih =>
    intro counter hd h1 hck hall
    have hcur := hall counter (Nat.le_refl _) hck
    rw [generate_loop]
    simp only [counter_name] at hcur
    rw [hcur]
    simp only [Bool.true_eq_false, if_false]
    rw [dif_neg (by omega : ¬ 9999 < counter + 1)]
    exact ih (counter + 1) (by omega) (by omega) (by omega)
      (fun j hj1 hj2 => hall j (by omega) hj2)

/-- C8.  Collision-avoidance naming: if `base.ext` does not exist at the
destination, `generate` returns it; if it exists, `generate` returns
`base.<k>.ext` for the smallest counter `k` in 1..9999 whose file does not
exist; and when every counter in 1..9999 is taken it falls back to
`base.copy.ext`. -/
theorem generate_collision_naming (base ext dest : String) (ex : String → Bool) :
    (ex (pathJoin dest (base ++ "." ++ ext)) = false →
      generate base ext dest ex = base ++ "." ++ ext)
    ∧ (∀ k, ex (pathJoin dest (base ++ "." ++ ext)) = true → 1 ≤ k → k ≤ 9999 →
      ex (pathJoin dest (counter_name base ext k)) = false →
      (∀ j, 1 ≤ j → j < k → ex (pathJoin dest (counter_name base ext j)) = true) →
      generate base ext dest ex = counter_name base ext k)
    ∧ (ex (pathJoin dest (base ++ "." ++ ext)) = true →
      (∀ j, 1 ≤ j → j ≤ 9999 → ex (pathJoin dest (counter_name base ext j)) = true) →
      generate base ext dest ex = base ++ ".copy." ++ ext) := by
  refine ⟨?_, ?_, ?_⟩
  · intro h
    unfold generate
    rw [if_pos h]
  · intro k hbase h1 h9 hk hprev
    unfold generate
    rw [if_neg (by rw [hbase]; simp)]
    exact generate_loop_finds base ext dest ex k (k - 1) 1 rfl (Nat.le_refl 1) h1 h9 hk
      (fun j hj1 hj2 => hprev j hj1 hj2)
  · intro hbase hall
    unfold generate
    rw [if_neg (by rw [hbase]; simp)]
    exact generate_loop_exhausted base ext dest ex 9998 1 rfl (Nat.le_refl 1) (by omega) hall

/-- Witness for C8: with `backup.tar.zst` existing at the destination, the next
generated name is `backup.1.tar.zst`; with that one also existing, the next is
`backup.2.tar.zst`. -/
theorem generate_collision_naming_witness :
    generate "backup" (get_extension "tar.zst") "dst"
        (fun s => s == "dst/backup.tar.zst") = "backup.1.tar.zst"
    ∧ generate "backup" (get_extension "tar.zst") "dst"
        (fun s => s == "dst/backup.tar.zst" || s == "dst/backup.1.tar.zst") =
      "backup.2.tar.zst" := by
  constructor
  · have h := (generate_collision_naming "backup" (get_extension "tar.zst") "dst"
      (fun s => s == "dst/backup.tar.zst")).2.1 1 (by decide) (by decide) (by decide)
      (by decide) (fun j hj1 hj2 => absurd hj2 (by omega))
    rw [h]
    rfl
  · have h := (generate_collision_naming "backup" (get_extension "tar.zst") "dst"
      (fun s => s == "dst/backup.tar.zst" || s == "dst/backup.1.tar.zst")).2.1 2
      (by decide) (by decide) (by decide) (by decide)
      (fun j hj1 hj2 => by
        have hj : j = 1 := by omega
        subst hj
        decide)
    rw [h]
    rfl

end Zencore
